import Mathlib

/-!
Verification of the routing-and-resilience layer of the qtmos router.

The Python sources are shallowly embedded:

* pure string manipulation (`str.strip`, `str.split`, `str.splitlines`,
  `"".join(s.split())`, `"\n".join(...)`) is modelled over `List Char`
  with ASCII whitespace (Python's `str.split()`/`strip()` whitespace set,
  restricted to ASCII, which is what the repository's tokens and env files
  use);
* `os.environ` slots touched by the code become an explicit `Env` record
  threaded through the functions; the durable env file (`llm/.env`) is a
  further field of that record so that (absence of) writes to it is visible;
* network calls and subprocess spawns are oracles collected in a `World`
  record; every spawn or HTTP post is also logged in an explicit call
  trace (`List Call`), so temporal claims ("zero bridge calls", "exactly
  one forced bootstrap") become statements about the trace;
* fallible operations return `Option`; Python's pervasive
  `try: ... except: return None` makes every embedded function total,
  which is how "never raises" claims are read.
-/

/-! ## Python string primitives -/

/-- ASCII whitespace as recognised by Python's `str.split()` / `str.strip()`. -/
def pyIsSpaceC (c : Char) : Bool :=
  c = ' ' || c = '\t' || c = '\n' || c = '\r' || c = '\x0b' || c = '\x0c'

/-- Python `s.rstrip()` on a character list. -/
def rstripC (l : List Char) : List Char := List.rdropWhile pyIsSpaceC l

/-- Python `s.lstrip()` on a character list. -/
def lstripC (l : List Char) : List Char := List.dropWhile pyIsSpaceC l

/-- Python `s.strip()` on a character list. -/
def stripC (l : List Char) : List Char := lstripC (rstripC l)

/-- Python `s.strip()`. -/
def pyStrip (s : String) : String := String.mk (stripC s.data)

/-- Python `"".join(s.split())`: drop every whitespace character. -/
def stripAllWsC (l : List Char) : List Char := l.filter (fun c => !pyIsSpaceC c)

/-- Python `"".join(str(s).split())` on a `String`. -/
def stripAllWs (s : String) : String := String.mk (stripAllWsC s.data)

/-- Split a character list at every newline; the result is always nonempty. -/
def splitNl : List Char → List (List Char)
  | [] => [[]]
  | c :: rest =>
    let r := splitNl rest
    if c = '\n' then [] :: r
    else
      match r with
      | [] => [[c]]
      | h :: t => (c :: h) :: t

/-- Join character-list lines with a newline (Python `"\n".join`). -/
def joinNl : List (List Char) → List Char
  | [] => []
  | [x] => x
  | x :: y :: t => x ++ '\n' :: joinNl (y :: t)

/-- Python `s.splitlines()` (newline-only form): split at `'\n'` and drop the
final empty piece produced by a trailing newline. -/
def pySplitlinesC (l : List Char) : List (List Char) :=
  let p := splitNl l
  if p.getLast? = some [] then p.dropLast else p

/-- Python `s.splitlines()` on `String`. -/
def pySplitlines (s : String) : List String := (pySplitlinesC s.data).map String.mk

/-- Python `s.lower()` (ASCII). -/
def pyLower (s : String) : String := String.mk (s.data.map Char.toLower)

/-- Python `s.upper()` (ASCII). -/
def pyUpper (s : String) : String := String.mk (s.data.map Char.toUpper)

/-- Truthiness of a Python value that is `None` or a string. -/
def optTruthy : Option String → Bool
  | none => false
  | some s => !s.isEmpty

/-- `x if x is not None else ""` (also identifies `None` with the empty string,
as every use site immediately does via `or ""`). -/
def optStr : Option String → String
  | none => ""
  | some s => s

/-- Python `a or b or ""` for two optional strings. -/
def pyOrStr (a b : Option String) : String :=
  if optTruthy a then optStr a else if optTruthy b then optStr b else ""

/-- Substring test (Python `needle in hay`) on character lists. -/
def isSubC (hay needle : List Char) : Bool :=
  needle.isPrefixOf hay ||
    match hay with
    | [] => false
    | _ :: t => isSubC t needle

/-- Python `needle in hay` on `String`. -/
def pyInStr (needle hay : String) : Bool := isSubC hay.data needle.data

/-! ## `skills/qtmos-http-tools/scripts/route_prompt.py`: candidate resolution -/

def DEFAULT_FAST : String := "gpt-4.1-mini"
def DEFAULT_REASONING : String := "claude-opus-4-6"
def DEFAULT_CODING : String := "codestral-2508"
def DEFAULT_DOCS : String := "gemini-2.5-pro"
def DEFAULT_LOCAL : String := "ollama/llama3:latest"

/-- `\w` of Python's `re`, restricted to ASCII. -/
def isWordCharC (c : Char) : Bool := c.isAlphanum || c = '_'

/-- A position is a word boundary when the neighbouring character (if any)
is not a word character. -/
def boundaryNot : Option Char → Bool
  | none => true
  | some c => !isWordCharC c

/-- The keyword `kw` matches at the head of `t` with `\b` on both sides,
`prev` being the character just before the current position. -/
def wordAt (kw : List Char) (prev : Option Char) (t : List Char) : Bool :=
  kw.isPrefixOf t && boundaryNot prev && boundaryNot (t.drop kw.length).head?

def hasWordAux (kw : List Char) : Option Char → List Char → Bool
  | prev, [] => wordAt kw prev []
  | prev, c :: rest => wordAt kw prev (c :: rest) || hasWordAux kw (some c) rest

/-- `re.search(r"\b" + kw + r"\b", t) is not None` for a literal keyword. -/
def hasWordC (t kw : List Char) : Bool := hasWordAux kw none t

def hasWord (t kw : String) : Bool := hasWordC t.data kw.data

/-- Keywords of the `coding` class (`_infer_task_class`, first regex). -/
def codingKeywords : List String :=
  ["code", "python", "javascript", "bug", "stacktrace", "function",
   "refactor", "compile", "script", "regex", "api"]

/-- Keywords of the `docs` class (second regex). -/
def docsKeywords : List String :=
  ["image", "pdf", "scan", "diagram", "screenshot", "document", "doc"]

/-- Keywords of the `reasoning` class (third regex; `analy[sz]e` contributes
both spellings). -/
def reasoningKeywords : List String :=
  ["reason", "analyse", "analyze", "proof", "math", "logic", "plan",
   "strategy", "difficult", "deep"]

/-- `re.search(r"\b(k1|k2|...)\b", t)` over a keyword alternation: some
keyword occurs with word boundaries. -/
def hasAnyKeyword (t : String) (kws : List String) : Bool :=
  kws.any (fun k => hasWord t k)

/-- `route_prompt._infer_task_class`: lower-case the task text and test the
three keyword regexes in order, defaulting to `"fast"`. -/
def _infer_task_class (task : String) : String :=
  let t := pyLower task
  if hasAnyKeyword t codingKeywords then "coding"
  else if hasAnyKeyword t docsKeywords then "docs"
  else if hasAnyKeyword t reasoningKeywords then "reasoning"
  else "fast"

/-- `route_prompt._auto_candidates`. -/
def _auto_candidates (task : String) : List String :=
  let cls := _infer_task_class task
  if cls = "coding" then [DEFAULT_CODING, DEFAULT_REASONING, DEFAULT_FAST, DEFAULT_LOCAL]
  else if cls = "docs" then [DEFAULT_DOCS, DEFAULT_REASONING, DEFAULT_FAST, DEFAULT_LOCAL]
  else if cls = "reasoning" then [DEFAULT_REASONING, DEFAULT_FAST, DEFAULT_LOCAL]
  else [DEFAULT_FAST, DEFAULT_REASONING, DEFAULT_LOCAL]

/-- The classifier as the spec words it: the priority-ordered class list, each
with its keyword set; the first class whose keywords match wins, `"fast"`
when none match. -/
def classPriority : List (String × List String) :=
  [("coding", codingKeywords), ("docs", docsKeywords), ("reasoning", reasoningKeywords)]

/-- Specification-side classifier: first match in priority order, else `"fast"`. -/
def specClassify (task : String) : String :=
  match classPriority.find? (fun p => hasAnyKeyword (pyLower task) p.2) with
  | some p => p.1
  | none => "fast"

/-! ## `core/cognitive_system.py`: durable credential sink -/

/-- Does a line of the env file match `s.strip().startswith(f"{key}=")`? -/
def envLineMatches (key line : List Char) : Bool :=
  (key ++ ['=']).isPrefixOf (stripC line)

/-- `CognitiveSystem._upsert_env_var`, lines-of-the-file part: replace every
`key=`-prefixed line with `key=value`, appending `key=value` when no line
matched. -/
def upsertLines (lines : List (List Char)) (key value : List Char) : List (List Char) :=
  let kv := key ++ '=' :: value
  if lines.any (envLineMatches key) then
    lines.map (fun line => if envLineMatches key line then kv else line)
  else lines ++ [kv]

/-- `CognitiveSystem._upsert_env_var` on the file contents: `content = none`
models a missing file (and a read failure collapses to the same empty line
list).  The write is `"\n".join(out).rstrip() + "\n"`. -/
def upsertFileC (content : Option (List Char)) (key value : List Char) : List Char :=
  let lines := match content with | none => [] | some c => pySplitlinesC c
  rstripC (joinNl (upsertLines lines key value)) ++ ['\n']

/-- `CognitiveSystem._upsert_env_var` at `String` level. -/
def _upsert_env_var (content : Option String) (key value : String) : String :=
  String.mk (upsertFileC (content.map String.data) key.data value.data)

/-- Is a line whitespace-only? -/
def lineAllWs (x : List Char) : Bool := x.all pyIsSpaceC

/-- The effect of `rstrip` on a newline-joined list of lines: drop trailing
whitespace-only lines, then right-strip the last remaining line. -/
def rstripLines (xs : List (List Char)) : List (List Char) :=
  (((xs.reverse).dropWhile lineAllWs).modifyHead rstripC).reverse

/-- `CognitiveSystem._token_sha256`: the SHA-256 hex digest of the token.
The hash itself is an external primitive (`hashlib`), passed as an oracle
`sha256hex`; the source applies it to `(token or "")`. -/
def _token_sha256 (sha256hex : String → String) (token : Option String) : String :=
  sha256hex (optStr token)

/-! ## `llm/llm_adapters.py`: data model of the dispatcher -/

/-- A parsed bridge reply: the JSON object fields the adapter reads
(`ok`, `content`, `token`, `model`, `error`, `detail`).  `isinstance(dict)`
checks are carried by the surrounding `Option`. -/
structure Payload where
  ok : Bool
  content : Option String
  token : Option String
  model : Option String
  error : Option String
  detail : Option String
deriving DecidableEq

/-- Module-level constants of `llm_adapters` (each the result of the
`os.getenv` call at import time, with its default already applied where the
source supplies one). -/
structure Config where
  PUTER_KEY : Option String
  PUTER_DEFAULT_MODEL : String
  PUTER_FALLBACK_MODEL : String
  /-- `PUTER_NODE_BRIDGE.exists()` -/
  bridgeExists : Bool
  OLLAMA_MODEL : String
  /-- raw value of the `QTM_LOCAL_ONLY` env var (`ask_router` defaults it to `"1"`) -/
  QTM_LOCAL_ONLY : Option String
  /-- `_gemini.enabled` -/
  geminiEnabled : Bool
deriving DecidableEq

/-- The mutable process state the adapter touches: the two in-memory
credential slots of `os.environ`, the fingerprint slot written only by the
interactive login command, and the contents of the durable sink `llm/.env`
(`none` = file absent). -/
structure Env where
  puterAuthToken : Option String
  PUTER_AUTH_TOKEN : Option String
  PUTER_TOKEN_SHA256 : Option String
  llmEnvFile : Option String
deriving DecidableEq

/-- One outbound side effect: a keyed HTTP chat post, the SDK resolution
probe, a spawn of the node bridge helper with its argv, a local Ollama HTTP
post, or a Gemini API call. -/
inductive Call where
  | keyedHttp (model : String)
  | sdkCheck
  | bridgeProc (argv : List String)
  | ollamaHttp (model : String)
  | geminiCall
deriving DecidableEq

/-- Oracles for the outside world: what each external interaction would
return.  Subprocess/HTTP failures (exceptions, timeouts) are `none`. -/
structure World where
  /-- keyed HTTP tier: prompt, model ↦ extracted chat content (`none` models
  a request exception or an extraction miss in `_extract_chat_content`) -/
  keyedContent : String → String → Option String
  /-- outcome of `_ensure_puter_sdk` -/
  ensureSdkOk : Bool
  /-- node bridge spawn: token in the child environment, argv ↦ stdout text -/
  bridgeStdout : String → List String → Option String
  /-- `json.loads` restricted to JSON objects: `none` on a parse error -/
  parse : String → Option Payload
  /-- Ollama HTTP post: prompt, model ↦ (status code, `response` field) -/
  ollamaPost : String → String → Option (Nat × Option String)
  /-- Gemini: prompt ↦ reply text -/
  geminiResp : String → Option String

/-! ## `llm/llm_adapters.py`: the functions -/

/-- `_puter_token`: read the two env slots with `or`-fallback and strip all
whitespace. -/
def _puter_token (env : Env) : String :=
  stripAllWs (pyOrStr env.puterAuthToken env.PUTER_AUTH_TOKEN)

/-- `_set_puter_token`: normalise; an empty result is a no-op returning `""`,
otherwise mirror the cleaned token into both env slots and return it. -/
def _set_puter_token (env : Env) (token : Option String) : String × Env :=
  let clean := stripAllWs (optStr token)
  if clean.isEmpty then ("", env)
  else (clean, { env with puterAuthToken := some clean, PUTER_AUTH_TOKEN := some clean })

/-- The fixed error-code set `PUTER_AUTH_RETRY_ERRORS`. -/
def PUTER_AUTH_RETRY_ERRORS : List String :=
  ["MISSING_AUTH_TOKEN", "INVALID_TOKEN_PLACEHOLDER", "INIT_FAILED", "AUTH_BOOTSTRAP_FAILED"]

/-- The fixed detail markers `PUTER_AUTH_RETRY_DETAIL_MARKERS`. -/
def PUTER_AUTH_RETRY_DETAIL_MARKERS : List String :=
  ["unauthorized", "forbidden", "invalid token", "invalid header value",
   "auth", "expired", "session", "401", "403"]

/-- `_bridge_error`: upper-cased, stripped `error` field (empty for a
non-dict payload). -/
def _bridge_error : Option Payload → String
  | none => ""
  | some p => pyUpper (pyStrip (optStr p.error))

/-- `_bridge_detail`: lower-cased, stripped `detail` field. -/
def _bridge_detail : Option Payload → String
  | none => ""
  | some p => pyLower (pyStrip (optStr p.detail))

/-- `_is_bridge_auth_failure`. -/
def _is_bridge_auth_failure (payload : Option Payload) : Bool :=
  let code := _bridge_error payload
  if PUTER_AUTH_RETRY_ERRORS.contains code then true
  else
    let detail := _bridge_detail payload
    !detail.isEmpty && PUTER_AUTH_RETRY_DETAIL_MARKERS.any (fun mark => pyInStr mark detail)

/-- Is the candidate line brace-delimited (`startswith("{") and endswith("}")`)? -/
def braceDelimited (c : String) : Bool :=
  (c.data.head? == some '\x7b') && (c.data.getLast? == some '\x7d')

/-- The candidate strings `_run_puter_node_bridge` scans: the full trimmed
output first, then each (stripped) line in reverse order. -/
def parseCandidates (out : String) : List String :=
  out :: ((pySplitlines out).reverse.map pyStrip)

/-- The parse loop of `_run_puter_node_bridge`: skip empty and
non-brace-delimited candidates, return the first successful `json.loads`. -/
def bridgeParse (parse : String → Option Payload) (out : String) : Option Payload :=
  (parseCandidates out).findSome? fun c =>
    if c.isEmpty then none
    else if !braceDelimited c then none
    else parse c

/-- `_run_puter_node_bridge`: token gate, SDK check, spawn, strip stdout,
parse.  Returns the payload (if any) and the trace of external calls made. -/
def _run_puter_node_bridge (w : World) (env : Env) (argv : List String)
    (requireToken : Bool) : Option Payload × List Call :=
  let token := _puter_token env
  if requireToken && token.isEmpty then (none, [])
  else if !w.ensureSdkOk then (none, [Call.sdkCheck])
  else
    match w.bridgeStdout token argv with
    | none => (none, [Call.sdkCheck, Call.bridgeProc argv])
    | some stdout =>
      let out := pyStrip stdout
      if out.isEmpty then (none, [Call.sdkCheck, Call.bridgeProc argv])
      else (bridgeParse w.parse out, [Call.sdkCheck, Call.bridgeProc argv])

/-- `_bootstrap_puter_token`. -/
def _bootstrap_puter_token (w : World) (cfg : Config) (env : Env) (force : Bool) :
    Option String × Env × List Call :=
  if optTruthy cfg.PUTER_KEY then (none, env, [])
  else if !cfg.bridgeExists then (none, env, [])
  else
    let existing := _puter_token env
    if !existing.isEmpty && !force then (some existing, env, [])
    else
      let r := _run_puter_node_bridge w env ["auth-token"] false
      match r.1 with
      | none => (none, env, r.2)
      | some p =>
        if !p.ok then (none, env, r.2)
        else
          let s := _set_puter_token env p.token
          (some s.1, s.2, r.2)

/-- `chat` argv as built in `call_puter_with_model`. -/
def chatArgv (model prompt : String) : List String :=
  ["chat", "--model", model, "--prompt", prompt]

/-- `_run_puter_bridge_with_reauth`. -/
def _run_puter_bridge_with_reauth (w : World) (cfg : Config) (env : Env)
    (argv : List String) : Option Payload × Env × List Call :=
  if !cfg.bridgeExists then (none, env, [])
  else
    let pre :=
      if (_puter_token env).isEmpty then
        let r := _bootstrap_puter_token w cfg env false
        (r.2.1, r.2.2)
      else (env, [])
    let env1 := pre.1
    let tr0 := pre.2
    let first := _run_puter_node_bridge w env1 argv true
    let payload := first.1
    let tr1 := first.2
    if payload.isNone && (_puter_token env1).isEmpty then
      let boot := _bootstrap_puter_token w cfg env1 true
      if optTruthy boot.1 then
        let retry := _run_puter_node_bridge w boot.2.1 argv true
        (retry.1, boot.2.1, tr0 ++ tr1 ++ boot.2.2 ++ retry.2)
      else (none, boot.2.1, tr0 ++ tr1 ++ boot.2.2)
    else if _is_bridge_auth_failure payload then
      let boot := _bootstrap_puter_token w cfg env1 true
      if optTruthy boot.1 then
        let retry := _run_puter_node_bridge w boot.2.1 argv true
        match retry.1 with
        | some r => (some r, boot.2.1, tr0 ++ tr1 ++ boot.2.2 ++ retry.2)
        | none => (payload, boot.2.1, tr0 ++ tr1 ++ boot.2.2 ++ retry.2)
      else (payload, boot.2.1, tr0 ++ tr1 ++ boot.2.2)
    else (payload, env1, tr0 ++ tr1)

/-- The candidate model list built at the top of `call_puter_with_model`. -/
def modelCandidates (cfg : Config) (model : Option String) : List String :=
  let selected := pyStrip (pyOrStr model (some cfg.PUTER_DEFAULT_MODEL))
  let cands := if selected.isEmpty then ([] : List String) else [selected]
  let fallback := pyStrip cfg.PUTER_FALLBACK_MODEL
  let cands :=
    if !fallback.isEmpty && !cands.contains fallback then cands ++ [fallback] else cands
  if cands.isEmpty then ["claude-opus-4-6"] else cands

/-- First pass of `call_puter_with_model` (static key configured): try the
keyed HTTP call for each candidate in order, returning on the first truthy
content. -/
def keyedLoop (w : World) (prompt : String) : List String → Option (String × String) × List Call
  | [] => (none, [])
  | c :: rest =>
    match w.keyedContent prompt c with
    | some content =>
      if !content.isEmpty then (some (content, c), [Call.keyedHttp c])
      else
        let r := keyedLoop w prompt rest
        (r.1, Call.keyedHttp c :: r.2)
    | none =>
      let r := keyedLoop w prompt rest
      (r.1, Call.keyedHttp c :: r.2)

/-- Second pass of `call_puter_with_model`: the bridge attempt for each
candidate in order, threading the credential state. -/
def bridgeLoopGo (w : World) (cfg : Config) (prompt : String) :
    List String → Env → Option (String × String) × Env × List Call
  | [] => fun env => (none, env, [])
  | c :: rest => fun env =>
    let att := _run_puter_bridge_with_reauth w cfg env (chatArgv c prompt)
    match att.1 with
    | none =>
      let r := bridgeLoopGo w cfg prompt rest att.2.1
      (r.1, r.2.1, att.2.2 ++ r.2.2)
    | some p =>
      if p.ok && optTruthy p.content then
        (some (optStr p.content, if optTruthy p.model then optStr p.model else c),
         att.2.1, att.2.2)
      else
        let r := bridgeLoopGo w cfg prompt rest att.2.1
        (r.1, r.2.1, att.2.2 ++ r.2.2)

def bridgeLoop (w : World) (cfg : Config) (prompt : String) (env : Env)
    (cands : List String) : Option (String × String) × Env × List Call :=
  bridgeLoopGo w cfg prompt cands env

/-- `call_puter_with_model`: build the candidate list; with a static key run
the keyed pass over all candidates first, then (only if it found nothing)
the bridge pass over all candidates; without a static key run the bridge
pass only.  `none` models Python's `return None, None`. -/
def call_puter_with_model (w : World) (cfg : Config) (env : Env) (prompt : String)
    (model : Option String) : Option (String × String) × Env × List Call :=
  let cands := modelCandidates cfg model
  if optTruthy cfg.PUTER_KEY then
    let k := keyedLoop w prompt cands
    match k.1 with
    | some r => (some r, env, k.2)
    | none =>
      let b := bridgeLoop w cfg prompt env cands
      (b.1, b.2.1, k.2 ++ b.2.2)
  else bridgeLoop w cfg prompt env cands

/-- `query_ollama`: post to the local server, with the silent one-shot retry
against `llama3:latest` on a 404 for a non-default model;
`raise_for_status` turns a status of 400 or above into `none`. -/
def query_ollama (w : World) (cfg : Config) (prompt : String) (model : Option String) :
    Option String × List Call :=
  let chosen := pyOrStr model (some cfg.OLLAMA_MODEL)
  match w.ollamaPost prompt chosen with
  | none => (none, [Call.ollamaHttp chosen])
  | some (status, body) =>
    if status = 404 ∧ chosen ≠ "llama3:latest" then
      match w.ollamaPost prompt "llama3:latest" with
      | none => (none, [Call.ollamaHttp chosen, Call.ollamaHttp "llama3:latest"])
      | some (s2, b2) =>
        (if 400 ≤ s2 then none else b2,
         [Call.ollamaHttp chosen, Call.ollamaHttp "llama3:latest"])
    else (if 400 ≤ status then none else body, [Call.ollamaHttp chosen])

/-- Tail of `ask_router` after the (possibly skipped) Puter attempt: the
Ollama tier, then — outside local-only mode — the Gemini tier. -/
def askRouterTail (w : World) (cfg : Config) (env1 : Env) (tr1 : List Call)
    (prompt : String) (localOnly : Bool) : (Option String × String) × Env × List Call :=
  let o := query_ollama w cfg prompt none
  if optTruthy o.1 then ((o.1, "ollama"), env1, tr1 ++ o.2)
  else if !localOnly && cfg.geminiEnabled then
    let g := w.geminiResp prompt
    (if optTruthy g then (g, "gemini") else (none, "none"),
     env1, tr1 ++ o.2 ++ [Call.geminiCall])
  else ((none, "none"), env1, tr1 ++ o.2)

/-- `ask_router`: local-only gate, then Puter → Ollama → Gemini in order. -/
def ask_router (w : World) (cfg : Config) (env : Env) (prompt : String) :
    (Option String × String) × Env × List Call :=
  let localOnly : Bool := cfg.QTM_LOCAL_ONLY.getD "1" == "1"
  if localOnly then askRouterTail w cfg env [] prompt true
  else
    let p := call_puter_with_model w cfg env prompt none
    let resp := p.1.map Prod.fst
    if optTruthy resp then ((resp, "puter"), p.2.1, p.2.2)
    else askRouterTail w cfg p.2.1 p.2.2 prompt false

/-! ## Derived notions used by the claims -/

/-- Does the bridge attempt count as a success for the dispatcher
(`payload.get("ok") and payload.get("content")`)? -/
def bridgeSuccess : Option Payload → Bool
  | none => false
  | some p => p.ok && optTruthy p.content

/-- Which candidate model a traced call is for: keyed HTTP posts carry their
model, bridge chat spawns carry it at argv position 2; SDK probes, the
`auth-token` login spawn, and local/Gemini calls are not tied to a candidate. -/
def callModelTag : Call → Option String
  | Call.keyedHttp m => some m
  | Call.bridgeProc argv => argv[2]?
  | _ => none

/-- The claim's dispatch shape: every externally visible call for an earlier
candidate happens before any call for a later candidate, i.e. the sequence of
candidate tags in the trace is non-decreasing in candidate-list position. -/
def dispatchedInCandidateOrder (cands : List String) : List String → Bool
  | [] => true
  | [_] => true
  | a :: b :: t =>
    decide (cands.findIdx (fun x => x == a) ≤ cands.findIdx (fun x => x == b)) &&
      dispatchedInCandidateOrder cands (b :: t)

/-! ## Concrete worlds, configurations and states for witnesses and
counterexamples -/

/-- A bridge reply that fails for a non-auth reason (`error = "X"`). -/
def failPayloadX : Payload :=
  { ok := false, content := none, token := none, model := none,
    error := some "X", detail := none }

/-- A bridge reply carrying an auth-failure signature. -/
def authFailPayload : Payload :=
  { ok := false, content := none, token := none, model := none,
    error := some "MISSING_AUTH_TOKEN", detail := none }

/-- A successful `auth-token` reply granting a fresh token. -/
def grantPayload : Payload :=
  { ok := true, content := none, token := some "newtok123", model := none,
    error := none, detail := none }

/-- A structurally `ok` `auth-token` reply whose token field is whitespace. -/
def wsGrantPayload : Payload :=
  { ok := true, content := none, token := some " ", model := none,
    error := none, detail := none }

/-- A world in which every external interaction fails. -/
def nullWorld : World :=
  { keyedContent := fun _ _ => none
    ensureSdkOk := false
    bridgeStdout := fun _ _ => none
    parse := fun _ => none
    ollamaPost := fun _ _ => none
    geminiResp := fun _ => none }

/-- A world whose keyed tier always fails and whose bridge always answers
with the non-auth failure `failPayloadX`. -/
def worldC1 : World :=
  { keyedContent := fun _ _ => none
    ensureSdkOk := true
    bridgeStdout := fun _ _ => some "\x7bE\x7d"
    parse := fun s => if s = "\x7bE\x7d" then some failPayloadX else none
    ollamaPost := fun _ _ => none
    geminiResp := fun _ => none }

/-- A world whose chat bridge always answers with an auth failure and whose
`auth-token` flow always grants a token. -/
def worldC2 : World :=
  { keyedContent := fun _ _ => none
    ensureSdkOk := true
    bridgeStdout := fun _ argv =>
      if argv = ["auth-token"] then some "\x7bG\x7d" else some "\x7bA\x7d"
    parse := fun s =>
      if s = "\x7bG\x7d" then some grantPayload
      else if s = "\x7bA\x7d" then some authFailPayload else none
    ollamaPost := fun _ _ => none
    geminiResp := fun _ => none }

/-- A world whose `auth-token` flow succeeds (fresh token `newtok123`) and
everything else fails. -/
def worldC7 : World :=
  { keyedContent := fun _ _ => none
    ensureSdkOk := true
    bridgeStdout := fun _ argv => if argv = ["auth-token"] then some "\x7bG\x7d" else none
    parse := fun s => if s = "\x7bG\x7d" then some grantPayload else none
    ollamaPost := fun _ _ => none
    geminiResp := fun _ => none }

/-- A world whose `auth-token` flow returns a structurally-ok reply with a
whitespace-only token. -/
def worldC10 : World :=
  { keyedContent := fun _ _ => none
    ensureSdkOk := true
    bridgeStdout := fun _ argv => if argv = ["auth-token"] then some "\x7bW\x7d" else none
    parse := fun s => if s = "\x7bW\x7d" then some wsGrantPayload else none
    ollamaPost := fun _ _ => none
    geminiResp := fun _ => none }

/-- Static key configured, candidates `mA` then `mB`, bridge present. -/
def cfgC1 : Config :=
  { PUTER_KEY := some "k", PUTER_DEFAULT_MODEL := "mA", PUTER_FALLBACK_MODEL := "mB",
    bridgeExists := true, OLLAMA_MODEL := "llama3:latest",
    QTM_LOCAL_ONLY := some "0", geminiEnabled := false }

/-- No static key, bridge present, fallback model equal to the requested one
(so a single-candidate dispatch). -/
def cfgBridge : Config :=
  { PUTER_KEY := none, PUTER_DEFAULT_MODEL := "mA", PUTER_FALLBACK_MODEL := "mA",
    bridgeExists := true, OLLAMA_MODEL := "llama3:latest",
    QTM_LOCAL_ONLY := some "0", geminiEnabled := false }

/-- No static key and no bridge script. -/
def cfgNoBridge : Config :=
  { PUTER_KEY := none, PUTER_DEFAULT_MODEL := "mA", PUTER_FALLBACK_MODEL := "mA",
    bridgeExists := false, OLLAMA_MODEL := "llama3:latest",
    QTM_LOCAL_ONLY := some "0", geminiEnabled := false }

/-- Local-only configuration (`QTM_LOCAL_ONLY` unset defaults to `"1"`). -/
def cfgLocal : Config :=
  { PUTER_KEY := none, PUTER_DEFAULT_MODEL := "mA", PUTER_FALLBACK_MODEL := "mA",
    bridgeExists := true, OLLAMA_MODEL := "llama3:latest",
    QTM_LOCAL_ONLY := none, geminiEnabled := true }

/-- Process state with a cached token `tok` and no durable file. -/
def envTok : Env :=
  { puterAuthToken := some "tok", PUTER_AUTH_TOKEN := none,
    PUTER_TOKEN_SHA256 := none, llmEnvFile := none }

/-- Completely empty process state. -/
def envEmpty : Env :=
  { puterAuthToken := none, PUTER_AUTH_TOKEN := none,
    PUTER_TOKEN_SHA256 := none, llmEnvFile := none }

/-! ## General helper lemmas -/

theorem stripAllWsC_idem (l : List Char) : stripAllWsC (stripAllWsC l) = stripAllWsC l := by
  simp [stripAllWsC, List.filter_filter]

theorem stripAllWs_idem (s : String) : stripAllWs (stripAllWs s) = stripAllWs s := by
  unfold stripAllWs
  exact congrArg String.mk (stripAllWsC_idem s.data)

theorem braceDelimited_empty_false (c : String) (h : c.isEmpty = true) :
    braceDelimited c = false := by
  rw [String.isEmpty_iff] at h
  subst h
  rfl

/-- A trace lemma for `_run_puter_node_bridge`: every run either produced no
payload or spawned exactly one SDK probe and one bridge process. -/
theorem nodeBridge_trace_cases (w : World) (env : Env) (argv : List String) (rt : Bool) :
    (_run_puter_node_bridge w env argv rt).1 = none ∨
      (_run_puter_node_bridge w env argv rt).2 = [Call.sdkCheck, Call.bridgeProc argv] := by
  unfold _run_puter_node_bridge
  by_cases h1 : (rt && (_puter_token env).isEmpty) = true
  · simp [h1]
  · simp only [h1, if_false, Bool.false_eq_true]
    by_cases h2 : (!w.ensureSdkOk) = true
    · simp [h2]
    · simp only [h2, if_false, Bool.false_eq_true]
      cases hs : w.bridgeStdout (_puter_token env) argv with
      | none => simp
      | some stdout => by_cases h3 : (pyStrip stdout).isEmpty = true <;> simp [h3]

theorem nodeBridge_some_trace (w : World) (env : Env) (argv : List String) (rt : Bool)
    (p : Payload) (h : (_run_puter_node_bridge w env argv rt).1 = some p) :
    (_run_puter_node_bridge w env argv rt).2 = [Call.sdkCheck, Call.bridgeProc argv] := by
  rcases nodeBridge_trace_cases w env argv rt with hnone | htr
  · rw [h] at hnone; cases hnone
  · exact htr

/-! ## C9: candidate resolution -/

/-- C9: For every task text with no explicit model, candidate resolution is a
total function: it classifies the text by case-insensitive word-boundary
keyword containment, checking the classes in the fixed priority order
coding, documents, reasoning, fast and returning the first match (falling
back to the fast class when no keywords match), and the resulting fixed,
hand-ordered candidate list always ends in the local-inference fallback
model. -/
theorem C9_classifier_first_match (task : String) :
    _infer_task_class task = specClassify task ∧
    (_auto_candidates task).getLast? = some DEFAULT_LOCAL := by
  constructor
  · unfold _infer_task_class specClassify classPriority
    by_cases h1 : hasAnyKeyword (pyLower task) codingKeywords = true
    · simp [h1, List.find?]
    · by_cases h2 : hasAnyKeyword (pyLower task) docsKeywords = true
      · simp [h1, h2, List.find?]
      · by_cases h3 : hasAnyKeyword (pyLower task) reasoningKeywords = true
        · simp [h1, h2, h3, List.find?]
        · simp [h1, h2, h3, List.find?]
  · simp only [_auto_candidates]
    split
    · rfl
    · split
      · rfl
      · split
        · rfl
        · rfl

/-! ## C6: non-forced bootstrap with a cached token -/

/-- C6 counterexample: the claim quantifies over *every* state with a cached
token, but when a static API key is configured `_bootstrap_puter_token`
returns `None` instead of the cached token (the static-key guard precedes
the cache check). -/
theorem C6_counterexample :
    _puter_token envTok = "tok" ∧
    cfgC1.PUTER_KEY = some "k" ∧
    (_bootstrap_puter_token worldC1 cfgC1 envTok false).1 ≠ some "tok" := by
  refine ⟨rfl, rfl, ?_⟩
  decide

/-- C6 amended: in every state where no static API key is configured, the
bridge script exists, and a cached token is present, `bootstrap(force=False)`
returns the cached token unchanged, leaves the state untouched, and makes no
external call at all (bridge invocation count stays zero). -/
theorem C6_amended_noop_bootstrap (w : World) (cfg : Config) (env : Env)
    (h1 : optTruthy cfg.PUTER_KEY = false)
    (h2 : cfg.bridgeExists = true)
    (h3 : (_puter_token env).isEmpty = false) :
    _bootstrap_puter_token w cfg env false = (some (_puter_token env), env, []) := by
  unfold _bootstrap_puter_token
  simp [h1, h2, h3]

/-- C6 amended, witness at a concrete state. -/
theorem C6_amended_witness :
    _bootstrap_puter_token nullWorld cfgBridge envTok false = (some "tok", envTok, []) := by
  have h := C6_amended_noop_bootstrap nullWorld cfgBridge envTok rfl rfl rfl
  simpa using h

/-! ## C7: what a successful bootstrap stores -/

/-- C7 counterexample: a successful bootstrap stores the normalised token in
the two in-memory slots, but writes nothing to the durable sink and computes
no fingerprint — the state after the call has an unchanged (absent) env file,
not the upserted one the claim requires, and an unchanged fingerprint slot. -/
theorem C7_counterexample :
    (_bootstrap_puter_token worldC7 cfgBridge envEmpty false).1 = some "newtok123" ∧
    (_bootstrap_puter_token worldC7 cfgBridge envEmpty false).2.1.puterAuthToken =
      some "newtok123" ∧
    (_bootstrap_puter_token worldC7 cfgBridge envEmpty false).2.1.PUTER_AUTH_TOKEN =
      some "newtok123" ∧
    (_bootstrap_puter_token worldC7 cfgBridge envEmpty false).2.1.llmEnvFile = none ∧
    (_bootstrap_puter_token worldC7 cfgBridge envEmpty false).2.1.PUTER_TOKEN_SHA256 = none ∧
    (_bootstrap_puter_token worldC7 cfgBridge envEmpty false).2.1.llmEnvFile ≠
      some (_upsert_env_var envEmpty.llmEnvFile "PUTER_AUTH_TOKEN" "newtok123") := by
  refine ⟨?_, ?_, ?_, ?_, ?_, ?_⟩ <;> decide

/-- C7 amended: on every successful bootstrap — forced (`force=True`, the
re-auth path) or not, whenever the cached-token short-circuit does not fire
and an external login reply is actually obtained — the token extracted from
the structured reply is normalised by stripping all whitespace and mirrored
into the two in-memory credential slots; every other piece of state — the
durable sink and the fingerprint slot included — is left untouched (those are
written only by the interactive login command).  The hypothesis `h3` is the
source's early-return condition being false: the bridge login runs exactly
when the bootstrap is forced or no token is cached. -/
theorem C7_amended_bootstrap_store (w : World) (cfg : Config) (env : Env) (p : Payload)
    (force : Bool)
    (h1 : optTruthy cfg.PUTER_KEY = false)
    (h2 : cfg.bridgeExists = true)
    (h3 : (!(_puter_token env).isEmpty && !force) = false)
    (h4 : (_run_puter_node_bridge w env ["auth-token"] false).1 = some p)
    (h5 : p.ok = true)
    (h6 : (stripAllWs (optStr p.token)).isEmpty = false) :
    _bootstrap_puter_token w cfg env force =
      (some (stripAllWs (optStr p.token)),
       { env with puterAuthToken := some (stripAllWs (optStr p.token)),
                  PUTER_AUTH_TOKEN := some (stripAllWs (optStr p.token)) },
       (_run_puter_node_bridge w env ["auth-token"] false).2) := by
  unfold _bootstrap_puter_token
  simp [h1, h2, h3, h4, h5, _set_puter_token, h6]

/-- C7 amended, witness: the forced re-auth bootstrap over a cached stale
token, and the non-forced bootstrap with an empty cache — in both, the fresh
token lands in the two in-memory slots only. -/
theorem C7_amended_witness :
    _bootstrap_puter_token worldC7 cfgBridge envTok true =
      (some "newtok123",
       { envTok with puterAuthToken := some "newtok123",
                     PUTER_AUTH_TOKEN := some "newtok123" },
       (_run_puter_node_bridge worldC7 envTok ["auth-token"] false).2) ∧
    _bootstrap_puter_token worldC7 cfgBridge envEmpty false =
      (some "newtok123",
       { envEmpty with puterAuthToken := some "newtok123",
                       PUTER_AUTH_TOKEN := some "newtok123" },
       (_run_puter_node_bridge worldC7 envEmpty ["auth-token"] false).2) := by
  constructor
  · have h := C7_amended_bootstrap_store worldC7 cfgBridge envTok grantPayload true
      rfl rfl (by decide) (by decide) rfl (by decide)
    simpa using h
  · have h := C7_amended_bootstrap_store worldC7 cfgBridge envEmpty grantPayload false
      rfl rfl (by decide) (by decide) rfl (by decide)
    simpa using h

/-! ## C10: whitespace-only tokens are rejected without touching state -/

/-- C10: For every input token that is empty or consists only of whitespace,
storing it in the credential cache is a no-op: the setter returns the empty
string and leaves both environment credential keys (indeed, the whole state)
unchanged; consequently a bootstrap reply whose token field is whitespace-only
yields a falsy result — treated as a failure — without altering the active
credential. -/
theorem C10_empty_token_noop :
    (∀ (env : Env) (tok : Option String), (stripAllWs (optStr tok)).isEmpty = true →
        _set_puter_token env tok = ("", env)) ∧
    (∀ (w : World) (cfg : Config) (env : Env) (p : Payload),
        optTruthy cfg.PUTER_KEY = false → cfg.bridgeExists = true →
        _puter_token env = "" →
        (_run_puter_node_bridge w env ["auth-token"] false).1 = some p → p.ok = true →
        (stripAllWs (optStr p.token)).isEmpty = true →
        (_bootstrap_puter_token w cfg env false).2.1 = env ∧
        optTruthy (_bootstrap_puter_token w cfg env false).1 = false) := by
  constructor
  · intro env tok h
    unfold _set_puter_token
    simp [h]
  · intro w cfg env p h1 h2 h3 h4 h5 h6
    have he : ("" : String).isEmpty = true := by decide
    unfold _bootstrap_puter_token
    rw [h1]
    simp [h2, h3, h4, h5, _set_puter_token, h6, he, optTruthy]

/-- C10 witness: the setter at a literal whitespace token, and a full
bootstrap against a world whose `auth-token` reply carries a whitespace-only
token field. -/
theorem C10_witness :
    _set_puter_token envTok (some " \t ") = ("", envTok) ∧
    (_bootstrap_puter_token worldC10 cfgBridge envEmpty false).2.1 = envEmpty ∧
    optTruthy (_bootstrap_puter_token worldC10 cfgBridge envEmpty false).1 = false := by
  refine ⟨C10_empty_token_noop.1 envTok (some " \t ") (by decide), ?_, ?_⟩
  · exact (C10_empty_token_noop.2 worldC10 cfgBridge envEmpty wsGrantPayload
      rfl rfl rfl (by decide) rfl (by decide)).1
  · exact (C10_empty_token_noop.2 worldC10 cfgBridge envEmpty wsGrantPayload
      rfl rfl rfl (by decide) rfl (by decide)).2

/-! ## C3: total exhaustion returns (None, None) -/

theorem keyedLoop_none_of_fail (w : World) (prompt : String)
    (hK : ∀ c, optTruthy (w.keyedContent prompt c) = false) :
    ∀ l, (keyedLoop w prompt l).1 = none := by
  intro l
  induction l with
  | nil => rfl
  | cons c rest ih =>
    unfold keyedLoop
    cases hc : w.keyedContent prompt c with
    | none => simpa using ih
    | some content =>
      have hcf := hK c
      rw [hc] at hcf
      simp only [optTruthy, Bool.not_eq_true'] at hcf
      simp [hcf, ih]

theorem bridgeLoopGo_none_of_fail (w : World) (cfg : Config) (prompt : String)
    (hB : ∀ (e : Env) (argv : List String),
        bridgeSuccess (_run_puter_bridge_with_reauth w cfg e argv).1 = false) :
    ∀ (l : List String) (e : Env), (bridgeLoopGo w cfg prompt l e).1 = none := by
  intro l
  induction l with
  | nil => intro e; rfl
  | cons c rest ih =>
    intro e
    unfold bridgeLoopGo
    have h := hB e (chatArgv c prompt)
    cases hp : (_run_puter_bridge_with_reauth w cfg e (chatArgv c prompt)).1 with
    | none => simp [hp, ih]
    | some p =>
      rw [hp] at h
      simp only [bridgeSuccess] at h
      simp [hp, h, ih]

theorem bridgeLoop_none_of_fail (w : World) (cfg : Config) (prompt : String)
    (hB : ∀ (e : Env) (argv : List String),
        bridgeSuccess (_run_puter_bridge_with_reauth w cfg e argv).1 = false) :
    ∀ (l : List String) (e : Env), (bridgeLoop w cfg prompt e l).1 = none :=
  fun l e => bridgeLoopGo_none_of_fail w cfg prompt hB l e

/-- C3: For every dispatch in which every candidate fails (keyed tier never
yields truthy content, bridge tier never yields an `ok` reply with content),
the dispatcher returns `(None, None)` — modelled as `none` — and, the
embedding being a total function, no exception escapes to the caller. -/
theorem C3_exhaustion_returns_none (w : World) (cfg : Config) (env : Env)
    (prompt : String) (model : Option String)
    (hK : ∀ c, optTruthy (w.keyedContent prompt c) = false)
    (hB : ∀ (e : Env) (argv : List String),
        bridgeSuccess (_run_puter_bridge_with_reauth w cfg e argv).1 = false) :
    (call_puter_with_model w cfg env prompt model).1 = none := by
  unfold call_puter_with_model
  by_cases hk : optTruthy cfg.PUTER_KEY = true
  · simp only [hk, if_true]
    cases hkl : (keyedLoop w prompt (modelCandidates cfg model)).1 with
    | some r =>
      have := keyedLoop_none_of_fail w prompt hK (modelCandidates cfg model)
      rw [hkl] at this
      cases this
    | none => simp [bridgeLoop_none_of_fail w cfg prompt hB]
  · simp only [Bool.not_eq_true] at hk
    simp [hk, bridgeLoop_none_of_fail w cfg prompt hB]

/-- C3 witness: with no configured key, no bridge script and a dead local
network, dispatch at a concrete state returns `none`. -/
theorem C3_witness :
    (call_puter_with_model nullWorld cfgNoBridge envTok "p" (some "mA")).1 = none :=
  C3_exhaustion_returns_none nullWorld cfgNoBridge envTok "p" (some "mA")
    (fun _ => rfl)
    (fun e argv => by
      unfold _run_puter_bridge_with_reauth
      simp [cfgNoBridge, bridgeSuccess])

/-! ## C4: tolerant JSON scanning in the bridge invoker -/

theorem findSome_guard_eq (parse : String → Option Payload)
    (hp : ∀ s, (parse s).isSome = true → braceDelimited s = true) :
    ∀ l : List String,
      (l.findSome? fun c =>
          if c.isEmpty then none else if !braceDelimited c then none else parse c)
        = l.findSome? parse := by
  intro l
  induction l with
  | nil => rfl
  | cons c rest ih =>
    have hnone : ∀ (hskip : braceDelimited c = false), parse c = none := by
      intro hskip
      cases hpc : parse c with
      | none => rfl
      | some p =>
        have := hp c (by rw [hpc]; rfl)
        rw [this] at hskip
        cases hskip
    have hval : (if c.isEmpty = true then none
        else if (!braceDelimited c) = true then none else parse c) = parse c := by
      by_cases h1 : c.isEmpty = true
      · rw [if_pos h1, hnone (braceDelimited_empty_false c h1)]
      · rw [if_neg h1]
        by_cases h2 : braceDelimited c = true
        · simp [h2]
        · have h2f : braceDelimited c = false := by
            cases hb : braceDelimited c
            · rfl
            · exact absurd hb h2
          simp [h2f, hnone h2f]
    rw [List.findSome?_cons, List.findSome?_cons, hval]
    cases parse c
    · exact ih
    · rfl

/-- C4: For every subprocess output text, the bridge invoker's parser scans
candidate strings — the full trimmed output first, then each line in reverse
order — and returns the parsed form of the first candidate on which the JSON
object parser succeeds (the brace pre-filter skips nothing a JSON-object
parser could accept); if no candidate parses it returns `none`; and on
subprocess failure the invoker yields `none` (the embedding is total, so
no exception can escape). -/
theorem C4_bridge_parse_scan (w : World)
    (hp : ∀ s, (w.parse s).isSome = true → braceDelimited s = true) :
    (∀ out, bridgeParse w.parse out = (parseCandidates out).findSome? w.parse) ∧
    (∀ (env : Env) (argv : List String) (rt : Bool),
        w.bridgeStdout (_puter_token env) argv = none →
        (_run_puter_node_bridge w env argv rt).1 = none) := by
  constructor
  · intro out
    unfold bridgeParse
    exact findSome_guard_eq w.parse hp (parseCandidates out)
  · intro env argv rt hs
    unfold _run_puter_node_bridge
    by_cases h1 : (rt && (_puter_token env).isEmpty) = true
    · simp [h1]
    · by_cases h2 : (!w.ensureSdkOk) = true
      · simp [h1, h2]
      · simp [h1, h2, hs]

/-- C4 witness: the scan equivalence at a concrete output, and `none` on a
failed spawn in a concrete state. -/
theorem C4_witness :
    bridgeParse nullWorld.parse "log" =
      (parseCandidates "log").findSome? nullWorld.parse ∧
    (_run_puter_node_bridge nullWorld envTok ["chat"] true).1 = none := by
  constructor
  · exact (C4_bridge_parse_scan nullWorld (by intro s h; simp [nullWorld] at h)).1 "log"
  · exact (C4_bridge_parse_scan nullWorld (by intro s h; simp [nullWorld] at h)).2
      envTok ["chat"] true rfl

/-! ## C5: local-only mode makes only local calls -/

theorem query_ollama_trace (w : World) (cfg : Config) (prompt : String)
    (model : Option String) :
    ∀ call ∈ (query_ollama w cfg prompt model).2, ∃ m, call = Call.ollamaHttp m := by
  intro call hc
  simp only [query_ollama] at hc
  cases h1 : w.ollamaPost prompt (pyOrStr model (some cfg.OLLAMA_MODEL)) with
  | none =>
    rw [h1] at hc
    simp at hc
    exact ⟨_, hc⟩
  | some sb =>
    obtain ⟨status, body⟩ := sb
    rw [h1] at hc
    dsimp only [] at hc
    by_cases h2 : status = 404 ∧ pyOrStr model (some cfg.OLLAMA_MODEL) ≠ "llama3:latest"
    · rw [if_pos h2] at hc
      cases h3 : w.ollamaPost prompt "llama3:latest" with
      | none =>
        rw [h3] at hc
        simp at hc
        rcases hc with hc | hc
        · exact ⟨_, hc⟩
        · exact ⟨_, hc⟩
      | some sb2 =>
        obtain ⟨s2, b2⟩ := sb2
        rw [h3] at hc
        simp at hc
        rcases hc with hc | hc
        · exact ⟨_, hc⟩
        · exact ⟨_, hc⟩
    · rw [if_neg h2] at hc
      simp at hc
      exact ⟨_, hc⟩

/-- C5: For every prompt, when local-only mode is enabled (`QTM_LOCAL_ONLY`
absent or `"1"`), the router issues zero keyed-HTTP and zero
bridge-subprocess calls — every traced call is a local Ollama post — and the
credential state is untouched. -/
theorem C5_local_only_isolation (w : World) (cfg : Config) (env : Env) (prompt : String)
    (h : cfg.QTM_LOCAL_ONLY.getD "1" = "1") :
    (∀ call ∈ (ask_router w cfg env prompt).2.2, ∃ m, call = Call.ollamaHttp m) ∧
    (ask_router w cfg env prompt).2.1 = env := by
  have hlocal : (cfg.QTM_LOCAL_ONLY.getD "1" == "1") = true := by
    rw [h]
    decide
  simp only [ask_router, hlocal, if_true, askRouterTail, Bool.not_true, Bool.false_and,
    Bool.false_eq_true, if_false, List.nil_append]
  by_cases h1 : optTruthy (query_ollama w cfg prompt none).1 = true
  · simp only [h1, if_true]
    exact ⟨fun call hc => query_ollama_trace w cfg prompt none call hc, trivial⟩
  · simp only [h1, Bool.false_eq_true, if_false]
    exact ⟨fun call hc => query_ollama_trace w cfg prompt none call hc, trivial⟩

/-- C5 witness: local-only routing at a concrete world and state. -/
theorem C5_witness :
    (∀ call ∈ (ask_router nullWorld cfgLocal envTok "p").2.2,
        ∃ m, call = Call.ollamaHttp m) ∧
    (ask_router nullWorld cfgLocal envTok "p").2.1 = envTok :=
  C5_local_only_isolation nullWorld cfgLocal envTok "p" rfl

/-! ## C1: order of tiers across candidates -/

theorem keyedLoop_trace_of_none (w : World) (prompt : String) :
    ∀ l, (keyedLoop w prompt l).1 = none →
      (keyedLoop w prompt l).2 = l.map Call.keyedHttp := by
  intro l
  induction l with
  | nil => intro _; rfl
  | cons c rest ih =>
    intro h
    unfold keyedLoop at h ⊢
    cases hc : w.keyedContent prompt c with
    | none =>
      rw [hc] at h
      dsimp only [] at h ⊢
      rw [List.map_cons, ih h]
    | some content =>
      rw [hc] at h
      dsimp only [] at h ⊢
      by_cases hne : (!content.isEmpty) = true
      · rw [if_pos hne] at h
        cases h
      · rw [if_neg hne] at h ⊢
        rw [List.map_cons, ih h]

theorem keyedLoop_trace_keyed_only (w : World) (prompt : String) :
    ∀ l, ∀ call ∈ (keyedLoop w prompt l).2, ∃ m, call = Call.keyedHttp m := by
  intro l
  induction l with
  | nil => intro call hc; cases hc
  | cons c rest ih =>
    intro call hc
    unfold keyedLoop at hc
    cases hcc : w.keyedContent prompt c with
    | none =>
      rw [hcc] at hc
      dsimp only [] at hc
      rcases List.mem_cons.mp hc with hc2 | hc2
      · exact ⟨c, hc2⟩
      · exact ih call hc2
    | some content =>
      rw [hcc] at hc
      dsimp only [] at hc
      by_cases hne : (!content.isEmpty) = true
      · rw [if_pos hne] at hc
        simp at hc
        exact ⟨c, hc⟩
      · rw [if_neg hne] at hc
        rcases List.mem_cons.mp hc with hc2 | hc2
        · exact ⟨c, hc2⟩
        · exact ih call hc2

/-- C1 counterexample: with a static key, two candidates `mA`, `mB`, the
keyed tier failing everywhere and the bridge answering a non-auth failure,
the dispatcher's externally visible call sequence is keyed `mA`, keyed `mB`,
bridge `mA`, bridge `mB` — the bridge attempt for `mA` comes *after* the
keyed call for `mB`, so candidates are not processed one at a time with a
keyed-then-bridge fall-through per candidate as the claim states. -/
theorem C1_counterexample :
    ((call_puter_with_model worldC1 cfgC1 envTok "p" (some "mA")).2.2.filterMap callModelTag
        = ["mA", "mB", "mA", "mB"]) ∧
    dispatchedInCandidateOrder ["mA", "mB"]
        ((call_puter_with_model worldC1 cfgC1 envTok "p" (some "mA")).2.2.filterMap callModelTag)
      = false := by
  constructor
  · decide
  · decide

/-- C1 amended: with a static key configured the dispatcher runs *two
passes*: first the keyed HTTP call for every candidate in order, returning
immediately (and making no bridge call at all) on the first truthy content;
only after every keyed attempt has failed does it run the bridge attempt for
each candidate in order, appending the whole bridge-pass trace after the
whole keyed-pass trace. -/
theorem C1_amended_two_pass (w : World) (cfg : Config) (env : Env) (prompt : String)
    (model : Option String) (hkey : optTruthy cfg.PUTER_KEY = true) :
    (∀ r, (keyedLoop w prompt (modelCandidates cfg model)).1 = some r →
        call_puter_with_model w cfg env prompt model =
          (some r, env, (keyedLoop w prompt (modelCandidates cfg model)).2) ∧
        ∀ call ∈ (keyedLoop w prompt (modelCandidates cfg model)).2,
          ∃ m, call = Call.keyedHttp m) ∧
    ((keyedLoop w prompt (modelCandidates cfg model)).1 = none →
        (keyedLoop w prompt (modelCandidates cfg model)).2 =
          (modelCandidates cfg model).map Call.keyedHttp ∧
        call_puter_with_model w cfg env prompt model =
          ((bridgeLoop w cfg prompt env (modelCandidates cfg model)).1,
           (bridgeLoop w cfg prompt env (modelCandidates cfg model)).2.1,
           (modelCandidates cfg model).map Call.keyedHttp ++
             (bridgeLoop w cfg prompt env (modelCandidates cfg model)).2.2)) := by
  constructor
  · intro r hr
    constructor
    · unfold call_puter_with_model
      rw [hkey]
      simp only [if_true, hr]
    · exact keyedLoop_trace_keyed_only w prompt (modelCandidates cfg model)
  · intro hr
    have htr := keyedLoop_trace_of_none w prompt (modelCandidates cfg model) hr
    refine ⟨htr, ?_⟩
    unfold call_puter_with_model
    rw [hkey]
    simp only [if_true, hr, htr]

/-- C1 amended, witness: the concrete two-pass dispatch. -/
theorem C1_amended_witness :
    call_puter_with_model worldC1 cfgC1 envTok "p" (some "mA") =
      ((bridgeLoop worldC1 cfgC1 "p" envTok (modelCandidates cfgC1 (some "mA"))).1,
       (bridgeLoop worldC1 cfgC1 "p" envTok (modelCandidates cfgC1 (some "mA"))).2.1,
       (modelCandidates cfgC1 (some "mA")).map Call.keyedHttp ++
         (bridgeLoop worldC1 cfgC1 "p" envTok (modelCandidates cfgC1 (some "mA"))).2.2) :=
  ((C1_amended_two_pass worldC1 cfgC1 envTok "p" (some "mA") (by decide)).2 (by decide)).2

/-! ## C2: exactly one forced bootstrap and one retry per candidate -/

theorem optTruthy_some (s : String) : optTruthy (some s) = !s.isEmpty := rfl

theorem optStr_some (s : String) : optStr (some s) = s := rfl

/-- C2: For a single candidate whose bridge reply signals an authentication
failure on every call (and whose `auth-token` login flow grants a token),
one dispatch spawns the `auth-token` login bridge process exactly once
(the forced `bootstrap(force=True)`), spawns the candidate's chat bridge
process exactly twice (the original call plus exactly one retry), and
terminates with the failure result `none` — no further retries, no loop. -/
theorem C2_single_forced_reauth (w : World) (cfg : Config) (env : Env)
    (prompt A : String) (pfail pgrant : Payload)
    (hkey : optTruthy cfg.PUTER_KEY = false)
    (hbr : cfg.bridgeExists = true)
    (htok : (_puter_token env).isEmpty = false)
    (hcands : modelCandidates cfg (some A) = [A])
    (hchat : ∀ e : Env, (_puter_token e).isEmpty = false →
        (_run_puter_node_bridge w e (chatArgv A prompt) true).1 = some pfail)
    (hfail : _is_bridge_auth_failure (some pfail) = true)
    (hnotok : pfail.ok = false)
    (hgrant : ∀ e : Env, (_run_puter_node_bridge w e ["auth-token"] false).1 = some pgrant)
    (hgok : pgrant.ok = true)
    (hgtok : (stripAllWs (optStr pgrant.token)).isEmpty = false) :
    (call_puter_with_model w cfg env prompt (some A)).1 = none ∧
    ((call_puter_with_model w cfg env prompt (some A)).2.2.countP
        (fun c => decide (c = Call.bridgeProc ["auth-token"]))) = 1 ∧
    ((call_puter_with_model w cfg env prompt (some A)).2.2.countP
        (fun c => decide (c = Call.bridgeProc (chatArgv A prompt)))) = 2 := by
  have hboot : _bootstrap_puter_token w cfg env true =
      (some (stripAllWs (optStr pgrant.token)), (_set_puter_token env pgrant.token).2,
       (_run_puter_node_bridge w env ["auth-token"] false).2) := by
    unfold _bootstrap_puter_token
    rw [hkey]
    simp [hbr, hgrant env, hgok, _set_puter_token, hgtok]
  have henv2 : _puter_token (_set_puter_token env pgrant.token).2 =
      stripAllWs (optStr pgrant.token) := by
    simp only [_set_puter_token, hgtok, Bool.false_eq_true, if_false]
    unfold _puter_token pyOrStr
    simp [optTruthy_some, optStr_some, hgtok, stripAllWs_idem]
  have hretok : (_puter_token (_set_puter_token env pgrant.token).2).isEmpty = false := by
    rw [henv2]
    exact hgtok
  have htr1 : (_run_puter_node_bridge w env (chatArgv A prompt) true).2 =
      [Call.sdkCheck, Call.bridgeProc (chatArgv A prompt)] :=
    nodeBridge_some_trace w env _ true pfail (hchat env htok)
  have hauthtr : (_run_puter_node_bridge w env ["auth-token"] false).2 =
      [Call.sdkCheck, Call.bridgeProc ["auth-token"]] :=
    nodeBridge_some_trace w env _ false pgrant (hgrant env)
  have htr2 : (_run_puter_node_bridge w (_set_puter_token env pgrant.token).2
      (chatArgv A prompt) true).2 =
      [Call.sdkCheck, Call.bridgeProc (chatArgv A prompt)] :=
    nodeBridge_some_trace w _ _ true pfail (hchat _ hretok)
  have hreauth : _run_puter_bridge_with_reauth w cfg env (chatArgv A prompt) =
      (some pfail, (_set_puter_token env pgrant.token).2,
       [Call.sdkCheck, Call.bridgeProc (chatArgv A prompt),
        Call.sdkCheck, Call.bridgeProc ["auth-token"],
        Call.sdkCheck, Call.bridgeProc (chatArgv A prompt)]) := by
    unfold _run_puter_bridge_with_reauth
    simp only [hbr, Bool.not_true, Bool.false_eq_true, if_false, htok,
      hchat env htok, htr1, Option.isNone_some, Bool.false_and, hfail, if_true,
      hboot, hauthtr, hchat _ hretok, htr2, optTruthy_some, hgtok, Bool.not_false,
      List.nil_append, List.append_assoc, List.cons_append, List.singleton_append]
  have hdisp : call_puter_with_model w cfg env prompt (some A) =
      (none, (_set_puter_token env pgrant.token).2,
       [Call.sdkCheck, Call.bridgeProc (chatArgv A prompt),
        Call.sdkCheck, Call.bridgeProc ["auth-token"],
        Call.sdkCheck, Call.bridgeProc (chatArgv A prompt)]) := by
    unfold call_puter_with_model
    rw [hkey]
    simp only [Bool.false_eq_true, if_false, hcands]
    unfold bridgeLoop bridgeLoopGo
    simp only [hreauth, hnotok, Bool.false_and, Bool.false_eq_true, if_false,
      List.append_nil]
    rfl
  refine ⟨by rw [hdisp], ?_, ?_⟩
  · rw [hdisp]
    simp [List.countP_cons, chatArgv]
  · rw [hdisp]
    simp [List.countP_cons, chatArgv]

/-- C2 witness: the concrete single-candidate dispatch against a world whose
chat bridge always reports `MISSING_AUTH_TOKEN` and whose login flow grants
a token: exactly one `auth-token` spawn, exactly two chat spawns, failure. -/
theorem C2_witness :
    (call_puter_with_model worldC2 cfgBridge envTok "p" (some "mA")).1 = none ∧
    ((call_puter_with_model worldC2 cfgBridge envTok "p" (some "mA")).2.2.countP
        (fun c => decide (c = Call.bridgeProc ["auth-token"]))) = 1 ∧
    ((call_puter_with_model worldC2 cfgBridge envTok "p" (some "mA")).2.2.countP
        (fun c => decide (c = Call.bridgeProc (chatArgv "mA" "p")))) = 2 :=
  C2_single_forced_reauth worldC2 cfgBridge envTok "p" "mA" authFailPayload grantPayload
    (by decide) rfl (by decide) (by decide)
    (by
      intro e he
      unfold _run_puter_node_bridge
      simp only [he, Bool.true_and, Bool.and_false, Bool.false_eq_true, if_false]
      rw [show worldC2.bridgeStdout (_puter_token e) (chatArgv "mA" "p") =
        some "\x7bA\x7d" from rfl]
      decide)
    (by decide) rfl
    (by
      intro e
      unfold _run_puter_node_bridge
      simp only [Bool.false_and, Bool.false_eq_true, if_false]
      rw [show worldC2.bridgeStdout (_puter_token e) ["auth-token"] =
        some "\x7bG\x7d" from rfl]
      decide)
    rfl (by decide)

/-! ## C8: idempotence of the durable-sink upsert -/

theorem rstripC_eq_nil_iff (l : List Char) :
    rstripC l = [] ↔ ∀ c ∈ l, pyIsSpaceC c = true := by
  unfold rstripC
  exact List.rdropWhile_eq_nil_iff

theorem rstripC_idem (l : List Char) : rstripC (rstripC l) = rstripC l :=
  List.rdropWhile_idempotent pyIsSpaceC l

theorem rstripC_append (a b : List Char) :
    rstripC (a ++ b) = if rstripC b = [] then rstripC a else a ++ rstripC b := by
  unfold rstripC List.rdropWhile
  rw [List.reverse_append, List.dropWhile_append]
  by_cases hb : (List.dropWhile pyIsSpaceC b.reverse).isEmpty = true
  · rw [if_pos hb]
    rw [List.isEmpty_iff] at hb
    rw [if_pos (by rw [hb]; rfl)]
  · rw [if_neg hb]
    rw [List.isEmpty_iff] at hb
    rw [if_neg (by
      intro hcon
      exact hb (by
        have := congrArg List.reverse hcon
        simpa using this))]
    simp [List.reverse_append]

theorem rstripC_of_all_nonws (l : List Char) (h : ∀ c ∈ l, pyIsSpaceC c = false) :
    rstripC l = l := by
  unfold rstripC
  rw [List.rdropWhile_eq_self_iff]
  intro hl
  rw [h (l.getLast hl) (List.getLast_mem hl)]
  exact Bool.false_ne_true

theorem lstripC_of_all_nonws (l : List Char) (h : ∀ c ∈ l, pyIsSpaceC c = false) :
    lstripC l = l := by
  unfold lstripC
  cases l with
  | nil => rfl
  | cons c t =>
    rw [List.dropWhile_cons, h c (List.mem_cons_self _ _)]
    simp

theorem stripC_of_all_nonws (l : List Char) (h : ∀ c ∈ l, pyIsSpaceC c = false) :
    stripC l = l := by
  unfold stripC
  rw [rstripC_of_all_nonws l h, lstripC_of_all_nonws l h]

theorem stripC_rstripC (l : List Char) : stripC (rstripC l) = stripC l := by
  unfold stripC
  rw [rstripC_idem]

theorem rstripC_subset (l : List Char) (c : Char) (h : c ∈ rstripC l) : c ∈ l :=
  (List.rdropWhile_prefix pyIsSpaceC l).subset h

theorem splitNl_cons (c : Char) (rest : List Char) :
    splitNl (c :: rest) =
      if c = '\n' then [] :: splitNl rest
      else
        match splitNl rest with
        | [] => [[c]]
        | h :: t => (c :: h) :: t := rfl

theorem splitNl_ne_nil (l : List Char) : splitNl l ≠ [] := by
  cases l with
  | nil => simp [splitNl]
  | cons c rest =>
    unfold splitNl
    by_cases hc : c = '\n'
    · simp [hc]
    · simp only [hc, if_false]
      cases splitNl rest <;> simp

theorem splitNl_no_nl (x : List Char) (h : '\n' ∉ x) : splitNl x = [x] := by
  induction x with
  | nil => rfl
  | cons c t ih =>
    have hc : ¬c = '\n' := fun hcon => h (hcon ▸ List.mem_cons_self _ _)
    have ht : '\n' ∉ t := fun hmem => h (List.mem_cons_of_mem c hmem)
    unfold splitNl
    rw [ih ht]
    simp [hc]

theorem splitNl_append_no_nl (x m : List Char) (h : '\n' ∉ x) :
    splitNl (x ++ m) = (splitNl m).modifyHead (x ++ ·) := by
  induction x with
  | nil =>
    cases hm : splitNl m with
    | nil => exact absurd hm (splitNl_ne_nil m)
    | cons hh t => simp [hm]
  | cons c t ih =>
    have hc : ¬c = '\n' := fun hcon => h (hcon ▸ List.mem_cons_self _ _)
    have ht : '\n' ∉ t := fun hmem => h (List.mem_cons_of_mem c hmem)
    show splitNl (c :: (t ++ m)) = (splitNl m).modifyHead ((c :: t) ++ ·)
    rw [splitNl_cons, ih ht]
    cases hm : splitNl m with
    | nil => exact absurd hm (splitNl_ne_nil m)
    | cons hh tt => simp [hc]

theorem splitNl_cons_nl (m : List Char) : splitNl ('\n' :: m) = [] :: splitNl m := by
  rw [splitNl_cons]
  simp

theorem splitNl_joinNl (xs : List (List Char)) (hne : xs ≠ [])
    (hnl : ∀ x ∈ xs, '\n' ∉ x) : splitNl (joinNl xs) = xs := by
  induction xs with
  | nil => exact absurd rfl hne
  | cons x rest ih =>
    cases rest with
    | nil =>
      show splitNl (joinNl [x]) = [x]
      unfold joinNl
      exact splitNl_no_nl x (hnl x (List.mem_cons_self _ _))
    | cons y t =>
      show splitNl (x ++ '\n' :: joinNl (y :: t)) = x :: y :: t
      rw [splitNl_append_no_nl x _ (hnl x (List.mem_cons_self _ _)), splitNl_cons_nl,
        List.modifyHead_cons]
      rw [ih (by simp) (fun z hz => hnl z (List.mem_cons_of_mem x hz))]
      simp

theorem splitNl_concat_nl (l : List Char) : splitNl (l ++ ['\n']) = splitNl l ++ [[]] := by
  induction l with
  | nil => rfl
  | cons c rest ih =>
    show splitNl (c :: (rest ++ ['\n'])) = splitNl (c :: rest) ++ [[]]
    rw [splitNl_cons, splitNl_cons, ih]
    by_cases hc : c = '\n'
    · simp [hc]
    · simp only [hc, if_false]
      cases hs : splitNl rest with
      | nil => exact absurd hs (splitNl_ne_nil rest)
      | cons hh tt => simp

theorem pySplitlinesC_concat_nl (X : List Char) :
    pySplitlinesC (X ++ ['\n']) = splitNl X := by
  unfold pySplitlinesC
  rw [splitNl_concat_nl]
  rw [if_pos (List.getLast?_concat _)]
  exact List.dropLast_concat

theorem mem_joinNl_of_mem (xs : List (List Char)) (x : List Char) (c : Char)
    (hx : x ∈ xs) (hc : c ∈ x) : c ∈ joinNl xs := by
  induction xs with
  | nil => cases hx
  | cons y rest ih =>
    cases rest with
    | nil =>
      have : x = y := by simpa using hx
      subst this
      exact hc
    | cons z t =>
      show c ∈ y ++ '\n' :: joinNl (z :: t)
      rcases List.mem_cons.mp hx with h | h
      · subst h
        exact List.mem_append_left _ hc
      · exact List.mem_append_right _ (List.mem_cons_of_mem _ (ih h))

theorem mem_of_mem_joinNl (xs : List (List Char)) (c : Char) (hc : c ∈ joinNl xs) :
    c = '\n' ∨ ∃ x ∈ xs, c ∈ x := by
  induction xs with
  | nil => cases hc
  | cons y rest ih =>
    cases rest with
    | nil =>
      right
      exact ⟨y, List.mem_cons_self _ _, hc⟩
    | cons z t =>
      rcases List.mem_append.mp hc with h | h
      · right
        exact ⟨y, List.mem_cons_self _ _, h⟩
      · rcases List.mem_cons.mp h with h2 | h2
        · left
          exact h2
        · rcases ih h2 with h3 | ⟨x, hx, hcx⟩
          · left
            exact h3
          · right
            exact ⟨x, List.mem_cons_of_mem _ hx, hcx⟩

theorem rstripC_of_lineAllWs (x : List Char) (hx : lineAllWs x = true) : rstripC x = [] :=
  (rstripC_eq_nil_iff x).mpr (fun c hc => List.all_eq_true.mp hx c hc)

theorem rstripC_joinNl (xs : List (List Char)) :
    rstripC (joinNl xs) = joinNl (rstripLines xs) := by
  induction xs with
  | nil => rfl
  | cons x rest ih =>
    cases rest with
    | nil =>
      show rstripC (joinNl [x]) = joinNl (rstripLines [x])
      unfold rstripLines
      rw [show ([x] : List (List Char)).reverse = [x] from rfl, List.dropWhile_cons]
      by_cases hx : lineAllWs x = true
      · rw [if_pos hx]
        show rstripC x = joinNl []
        rw [rstripC_of_lineAllWs x hx]
        rfl
      · rw [if_neg hx]
        rfl
    | cons y t =>
      show rstripC (x ++ '\n' :: joinNl (y :: t)) = joinNl (rstripLines (x :: y :: t))
      rw [show x ++ '\n' :: joinNl (y :: t) = (x ++ ['\n']) ++ joinNl (y :: t) by simp]
      rw [rstripC_append]
      have hxnl : rstripC (x ++ ['\n']) = rstripC x :=
        @List.rdropWhile_concat_pos _ pyIsSpaceC x '\n' (by decide)
      unfold rstripLines
      rw [show ((x :: y :: t) : List (List Char)).reverse = (y :: t).reverse ++ [x] by simp]
      rw [List.dropWhile_append]
      by_cases hm : rstripC (joinNl (y :: t)) = []
      · rw [if_pos hm, hxnl]
        have hallchars := (rstripC_eq_nil_iff _).mp hm
        have hlines : ∀ z ∈ (y :: t), lineAllWs z = true := fun z hz =>
          List.all_eq_true.mpr (fun c hc => hallchars c (mem_joinNl_of_mem _ z c hz hc))
        have hdrop : List.dropWhile lineAllWs (y :: t).reverse = [] :=
          List.dropWhile_eq_nil_iff.mpr (fun z hz => hlines z (List.mem_reverse.mp hz))
        rw [hdrop]
        rw [if_pos (by rfl)]
        rw [List.dropWhile_cons]
        by_cases hxa : lineAllWs x = true
        · rw [if_pos hxa, rstripC_of_lineAllWs x hxa]
          rfl
        · rw [if_neg hxa]
          rfl
      · rw [if_neg hm]
        have hex : ∃ z ∈ (y :: t), lineAllWs z = false := by
          by_contra hcon
          push_neg at hcon
          apply hm
          apply (rstripC_eq_nil_iff _).mpr
          intro c hc
          rcases mem_of_mem_joinNl _ c hc with h | ⟨z, hz, hcz⟩
          · rw [h]
            decide
          · have hzz := hcon z hz
            have hzz2 : lineAllWs z = true := by
              revert hzz
              cases lineAllWs z <;> simp
            exact List.all_eq_true.mp hzz2 c hcz
        obtain ⟨z, hz, hzfalse⟩ := hex
        have hdropne : List.dropWhile lineAllWs (y :: t).reverse ≠ [] := by
          intro hcon
          have := List.dropWhile_eq_nil_iff.mp hcon z (List.mem_reverse.mpr hz)
          rw [hzfalse] at this
          cases this
        rw [if_neg (by
          intro hcon
          rw [List.isEmpty_iff] at hcon
          exact hdropne hcon)]
        cases hd : List.dropWhile lineAllWs (y :: t).reverse with
        | nil => exact absurd hd hdropne
        | cons dh dt =>
          have hRL : rstripLines (y :: t) = (rstripC dh :: dt).reverse := by
            unfold rstripLines
            rw [hd, List.modifyHead_cons]
          have hstep : List.modifyHead rstripC ((dh :: dt) ++ [x]) =
              (rstripC dh :: dt) ++ [x] := by
            rw [List.cons_append, List.modifyHead_cons, List.cons_append]
          rw [hstep]
          rw [show ((rstripC dh :: dt) ++ [x]).reverse = x :: (rstripC dh :: dt).reverse by
            simp]
          rw [← hRL]
          cases hRL2 : rstripLines (y :: t) with
          | nil =>
            exfalso
            rw [hRL] at hRL2
            simp at hRL2
          | cons r1 r2 =>
            show (x ++ ['\n']) ++ rstripC (joinNl (y :: t)) = joinNl (x :: r1 :: r2)
            rw [ih, hRL2]
            show (x ++ ['\n']) ++ joinNl (r1 :: r2) = x ++ '\n' :: joinNl (r1 :: r2)
            simp

theorem splitNl_pieces_no_nl (l : List Char) : ∀ x ∈ splitNl l, '\n' ∉ x := by
  induction l with
  | nil =>
    intro x hx
    have : x = [] := by simpa [splitNl] using hx
    subst this
    exact List.not_mem_nil _
  | cons c rest ih =>
    intro x hx
    rw [splitNl_cons] at hx
    by_cases hc : c = '\n'
    · rw [if_pos hc] at hx
      rcases List.mem_cons.mp hx with h | h
      · subst h
        exact List.not_mem_nil _
      · exact ih x h
    · rw [if_neg hc] at hx
      cases hs : splitNl rest with
      | nil => exact absurd hs (splitNl_ne_nil rest)
      | cons hh tt =>
        rw [hs] at hx
        rcases List.mem_cons.mp hx with h | h
        · subst h
          intro hmem
          rcases List.mem_cons.mp hmem with h2 | h2
          · exact hc h2.symm
          · exact ih hh (hs ▸ List.mem_cons_self _ _) h2
        · exact ih x (hs ▸ List.mem_cons_of_mem _ h)

theorem pySplitlinesC_no_nl (l : List Char) : ∀ x ∈ pySplitlinesC l, '\n' ∉ x := by
  intro x hx
  unfold pySplitlinesC at hx
  by_cases h : (splitNl l).getLast? = some []
  · rw [if_pos h] at hx
    exact splitNl_pieces_no_nl l x ((List.dropLast_sublist _).subset hx)
  · rw [if_neg h] at hx
    exact splitNl_pieces_no_nl l x hx

theorem mem_dropWhile_of_not {α : Type} (p : α → Bool) (l : List α) (a : α)
    (ha : a ∈ l) (hpa : p a = false) : a ∈ l.dropWhile p := by
  induction l with
  | nil => cases ha
  | cons b t ih =>
    rw [List.dropWhile_cons]
    by_cases hb : p b = true
    · rw [if_pos hb]
      rcases List.mem_cons.mp ha with h | h
      · subst h
        rw [hpa] at hb
        cases hb
      · exact ih h
    · rw [if_neg hb]
      exact ha

theorem mem_modifyHead_struct {α : Type} (f : α → α) (l : List α) (a : α)
    (ha : a ∈ l.modifyHead f) : a ∈ l ∨ ∃ b ∈ l, a = f b := by
  cases l with
  | nil => cases ha
  | cons h t =>
    rw [List.modifyHead_cons] at ha
    rcases List.mem_cons.mp ha with h2 | h2
    · right
      exact ⟨h, List.mem_cons_self _ _, h2⟩
    · left
      exact List.mem_cons_of_mem _ h2

theorem mem_rstripLines_struct (xs : List (List Char)) (y : List Char)
    (hy : y ∈ rstripLines xs) : y ∈ xs ∨ ∃ x ∈ xs, y = rstripC x := by
  unfold rstripLines at hy
  rw [List.mem_reverse] at hy
  rcases mem_modifyHead_struct _ _ _ hy with h | ⟨b, hb, hyb⟩
  · left
    have := (List.dropWhile_sublist lineAllWs).subset h
    exact List.mem_reverse.mp this
  · right
    have := (List.dropWhile_sublist lineAllWs).subset hb
    exact ⟨b, List.mem_reverse.mp this, hyb⟩

theorem mem_rstripLines_self (xs : List (List Char)) (a : List Char)
    (ha : a ∈ xs) (haws : lineAllWs a = false) (hstr : rstripC a = a) :
    a ∈ rstripLines xs := by
  unfold rstripLines
  rw [List.mem_reverse]
  have h1 : a ∈ List.dropWhile lineAllWs xs.reverse :=
    mem_dropWhile_of_not _ _ a (List.mem_reverse.mpr ha) haws
  cases hd : List.dropWhile lineAllWs xs.reverse with
  | nil =>
    rw [hd] at h1
    cases h1
  | cons dh dt =>
    rw [hd] at h1
    rw [List.modifyHead_cons]
    rcases List.mem_cons.mp h1 with h | h
    · subst h
      rw [hstr]
      exact List.mem_cons_self _ _
    · exact List.mem_cons_of_mem _ h

theorem kv_chars_nonws (key value : List Char)
    (hk : ∀ ch ∈ key, pyIsSpaceC ch = false) (hv : ∀ ch ∈ value, pyIsSpaceC ch = false) :
    ∀ ch ∈ key ++ '=' :: value, pyIsSpaceC ch = false := by
  intro ch hch
  rcases List.mem_append.mp hch with h | h
  · exact hk ch h
  · rcases List.mem_cons.mp h with h2 | h2
    · subst h2
      decide
    · exact hv ch h2

theorem kv_no_nl (key value : List Char)
    (hk : ∀ ch ∈ key, pyIsSpaceC ch = false) (hv : ∀ ch ∈ value, pyIsSpaceC ch = false) :
    '\n' ∉ key ++ '=' :: value := by
  intro hmem
  have := kv_chars_nonws key value hk hv '\n' hmem
  simp [pyIsSpaceC] at this

theorem kv_not_allws (key value : List Char) (hk0 : key ≠ [])
    (hk : ∀ ch ∈ key, pyIsSpaceC ch = false) :
    lineAllWs (key ++ '=' :: value) = false := by
  cases hh : lineAllWs (key ++ '=' :: value) with
  | false => rfl
  | true =>
    exfalso
    cases key with
    | nil => exact hk0 rfl
    | cons k0 kt =>
      have h1 : pyIsSpaceC k0 = true :=
        List.all_eq_true.mp hh k0 (List.mem_append_left _ (List.mem_cons_self _ _))
      have h2 : pyIsSpaceC k0 = false := hk k0 (List.mem_cons_self _ _)
      rw [h1] at h2
      cases h2

theorem matches_kv (key value : List Char)
    (hk : ∀ ch ∈ key, pyIsSpaceC ch = false) (hv : ∀ ch ∈ value, pyIsSpaceC ch = false) :
    envLineMatches key (key ++ '=' :: value) = true := by
  unfold envLineMatches
  rw [stripC_of_all_nonws _ (kv_chars_nonws key value hk hv)]
  rw [List.isPrefixOf_iff_prefix]
  rw [show key ++ '=' :: value = (key ++ ['=']) ++ value by simp]
  exact List.prefix_append _ _

theorem matches_rstripC (key line : List Char) :
    envLineMatches key (rstripC line) = envLineMatches key line := by
  unfold envLineMatches
  rw [stripC_rstripC]

theorem upsertLines_mem_struct (lines : List (List Char)) (key value : List Char) :
    ∀ line ∈ upsertLines lines key value,
      line = key ++ '=' :: value ∨ envLineMatches key line = false := by
  intro line hline
  unfold upsertLines at hline
  by_cases hany : lines.any (envLineMatches key) = true
  · rw [if_pos hany] at hline
    obtain ⟨l0, hl0, himg⟩ := List.mem_map.mp hline
    by_cases hm : envLineMatches key l0 = true
    · rw [if_pos hm] at himg
      left
      exact himg.symm
    · rw [if_neg hm] at himg
      right
      subst himg
      cases hmm : envLineMatches key l0 with
      | false => rfl
      | true => exact absurd hmm hm
  · rw [if_neg hany] at hline
    rcases List.mem_append.mp hline with h | h
    · right
      have hfalse : lines.any (envLineMatches key) = false := by
        cases ha : lines.any (envLineMatches key) with
        | false => rfl
        | true => exact absurd ha hany
      have := List.any_eq_false.mp hfalse line h
      cases hmm : envLineMatches key line with
      | false => rfl
      | true => exact absurd hmm this
    · left
      simpa using h

theorem kv_mem_upsertLines (lines : List (List Char)) (key value : List Char) :
    key ++ '=' :: value ∈ upsertLines lines key value := by
  unfold upsertLines
  by_cases hany : lines.any (envLineMatches key) = true
  · rw [if_pos hany]
    obtain ⟨l0, hl0, hm⟩ := List.any_eq_true.mp hany
    refine List.mem_map.mpr ⟨l0, hl0, ?_⟩
    rw [if_pos hm]
  · rw [if_neg hany]
    exact List.mem_append_right _ (List.mem_cons_self _ _)

theorem upsertLines_no_nl (lines : List (List Char)) (key value : List Char)
    (hno : ∀ x ∈ lines, '\n' ∉ x)
    (hk : ∀ ch ∈ key, pyIsSpaceC ch = false) (hv : ∀ ch ∈ value, pyIsSpaceC ch = false) :
    ∀ x ∈ upsertLines lines key value, '\n' ∉ x := by
  intro x hx
  unfold upsertLines at hx
  by_cases hany : lines.any (envLineMatches key) = true
  · rw [if_pos hany] at hx
    obtain ⟨l0, hl0, himg⟩ := List.mem_map.mp hx
    by_cases hm : envLineMatches key l0 = true
    · rw [if_pos hm] at himg
      subst himg
      exact kv_no_nl key value hk hv
    · rw [if_neg hm] at himg
      subst himg
      exact hno l0 hl0
  · rw [if_neg hany] at hx
    rcases List.mem_append.mp hx with h | h
    · exact hno x h
    · have : x = key ++ '=' :: value := by simpa using h
      subst this
      exact kv_no_nl key value hk hv

theorem upsertLines_rstripLines_fixed (lines : List (List Char)) (key value : List Char)
    (hk0 : key ≠ []) (hk : ∀ ch ∈ key, pyIsSpaceC ch = false)
    (hv : ∀ ch ∈ value, pyIsSpaceC ch = false) :
    upsertLines (rstripLines (upsertLines lines key value)) key value
      = rstripLines (upsertLines lines key value) := by
  have hkvstr : rstripC (key ++ '=' :: value) = key ++ '=' :: value :=
    rstripC_of_all_nonws _ (kv_chars_nonws key value hk hv)
  have hkvmem2 : key ++ '=' :: value ∈ rstripLines (upsertLines lines key value) :=
    mem_rstripLines_self _ _ (kv_mem_upsertLines lines key value)
      (kv_not_allws key value hk0 hk) hkvstr
  have hany2 : (rstripLines (upsertLines lines key value)).any (envLineMatches key) = true :=
    List.any_eq_true.mpr ⟨_, hkvmem2, matches_kv key value hk hv⟩
  have hfix : ∀ y ∈ rstripLines (upsertLines lines key value),
      (if envLineMatches key y then key ++ '=' :: value else y) = y := by
    intro y hy
    rcases mem_rstripLines_struct _ y hy with h | ⟨x, hx, hyx⟩
    · rcases upsertLines_mem_struct lines key value y h with h2 | h2
      · rw [h2]
        simp [matches_kv key value hk hv]
      · rw [if_neg (by rw [h2]; exact Bool.false_ne_true)]
    · subst hyx
      rcases upsertLines_mem_struct lines key value x hx with h2 | h2
      · subst h2
        rw [hkvstr]
        simp [matches_kv key value hk hv]
      · rw [if_neg (by rw [matches_rstripC, h2]; exact Bool.false_ne_true)]
  have hrw : upsertLines (rstripLines (upsertLines lines key value)) key value =
      (rstripLines (upsertLines lines key value)).map
        (fun line => if envLineMatches key line then key ++ '=' :: value else line) := by
    have hany3 := hany2
    simp only [upsertLines] at hany3 ⊢
    rw [if_pos hany3]
  rw [hrw]
  calc (rstripLines (upsertLines lines key value)).map
        (fun line => if envLineMatches key line then key ++ '=' :: value else line)
      = (rstripLines (upsertLines lines key value)).map id := List.map_congr_left hfix
    _ = rstripLines (upsertLines lines key value) := List.map_id _

theorem upsertFileC_core_idem (lines1 : List (List Char)) (key value : List Char)
    (hk0 : key ≠ []) (hk : ∀ ch ∈ key, pyIsSpaceC ch = false)
    (hv : ∀ ch ∈ value, pyIsSpaceC ch = false)
    (hno : ∀ x ∈ lines1, '\n' ∉ x) :
    upsertFileC (some (rstripC (joinNl (upsertLines lines1 key value)) ++ ['\n'])) key value
      = rstripC (joinNl (upsertLines lines1 key value)) ++ ['\n'] := by
  have hout_no_nl := upsertLines_no_nl lines1 key value hno hk hv
  have hL2_no_nl : ∀ x ∈ rstripLines (upsertLines lines1 key value), '\n' ∉ x := by
    intro x hx
    rcases mem_rstripLines_struct _ x hx with h | ⟨z, hz, hxz⟩
    · exact hout_no_nl x h
    · subst hxz
      intro hmem
      exact hout_no_nl z hz (rstripC_subset z '\n' hmem)
  have hkvstr : rstripC (key ++ '=' :: value) = key ++ '=' :: value :=
    rstripC_of_all_nonws _ (kv_chars_nonws key value hk hv)
  have hL2_ne : rstripLines (upsertLines lines1 key value) ≠ [] := by
    intro hcon
    have := mem_rstripLines_self _ _ (kv_mem_upsertLines lines1 key value)
      (kv_not_allws key value hk0 hk) hkvstr
    rw [hcon] at this
    cases this
  show upsertFileC (some (rstripC (joinNl (upsertLines lines1 key value)) ++ ['\n']))
      key value = _
  simp only [upsertFileC]
  rw [pySplitlinesC_concat_nl,
    rstripC_joinNl (upsertLines lines1 key value),
    splitNl_joinNl _ hL2_ne hL2_no_nl,
    upsertLines_rstripLines_fixed lines1 key value hk0 hk hv,
    ← rstripC_joinNl, rstripC_idem]

/-- C8: For every durable-sink file state and every whitespace-free key and
token value (`CredentialStore.set` always strips all whitespace before
persisting), upserting the same `key=value` twice leaves the sink
byte-identical after the second call, and the fingerprint of the same token
is of course the same both times.  The upsert replaces every existing
`key=`-prefixed line with `key=value`, else appends one, leaving all other
lines unchanged (that is `upsertLines`, embedded from the source). -/
theorem C8_idempotent_upsert (c : Option String) (key value : String)
    (hk0 : key.data ≠ [])
    (hk : ∀ ch ∈ key.data, pyIsSpaceC ch = false)
    (hv : ∀ ch ∈ value.data, pyIsSpaceC ch = false) :
    _upsert_env_var (some (_upsert_env_var c key value)) key value
        = _upsert_env_var c key value ∧
    ∀ sha256hex : String → String,
      _token_sha256 sha256hex (some value) = _token_sha256 sha256hex (some value) := by
  refine ⟨?_, fun _ => rfl⟩
  unfold _upsert_env_var
  refine congrArg String.mk ?_
  show upsertFileC (some (upsertFileC (c.map String.data) key.data value.data))
      key.data value.data = upsertFileC (c.map String.data) key.data value.data
  cases c with
  | none =>
    have h0 : upsertFileC (none : Option (List Char)) key.data value.data =
        rstripC (joinNl (upsertLines [] key.data value.data)) ++ ['\n'] := rfl
    rw [show (Option.map String.data (none : Option String)) = none from rfl, h0]
    exact upsertFileC_core_idem [] key.data value.data hk0 hk hv
      (fun x hx => absurd hx (List.not_mem_nil x))
  | some s =>
    have h0 : upsertFileC (some s.data) key.data value.data =
        rstripC (joinNl (upsertLines (pySplitlinesC s.data) key.data value.data)) ++ ['\n'] :=
      rfl
    rw [show Option.map String.data (some s) = some s.data from rfl, h0]
    exact upsertFileC_core_idem (pySplitlinesC s.data) key.data value.data hk0 hk hv
      (pySplitlinesC_no_nl s.data)

/-- C8 witness: idempotence at a concrete env file, key and token. -/
theorem C8_witness :
    _upsert_env_var (some (_upsert_env_var (some "A=1\nPUTER_AUTH_TOKEN=old\nB=2")
        "PUTER_AUTH_TOKEN" "tok123")) "PUTER_AUTH_TOKEN" "tok123"
      = _upsert_env_var (some "A=1\nPUTER_AUTH_TOKEN=old\nB=2")
          "PUTER_AUTH_TOKEN" "tok123" ∧
    ∀ sha256hex : String → String,
      _token_sha256 sha256hex (some "tok123") = _token_sha256 sha256hex (some "tok123") :=
  C8_idempotent_upsert (some "A=1\nPUTER_AUTH_TOKEN=old\nB=2") "PUTER_AUTH_TOKEN" "tok123"
    (by decide) (by decide) (by decide)
